import Mathlib

/-
Verification of the stream-resolution and proxying subsystem of a YouTube audio
proxy server. The definitions below are a shallow embedding of the server file
(server/index.js, the ytdl-core variant) and, where a claim refers to it, of the
historical yt-dlp variant (.history/server/index_20260113173543.js). JavaScript
Map objects are embedded as association lists with unique keys, JavaScript
strings as Lean strings (lists of characters), timestamps as natural numbers of
milliseconds, and promise settlement as an explicit state-machine step.
-/

set_option autoImplicit false

namespace MusicDownloader

universe u v

/-! ## JavaScript Map model

A JavaScript Map is embedded as an association list. `mapSet` replaces the
value in place when the key is present and appends otherwise (Map keys stay
unique and keep insertion order); `mapDelete` removes the entry of the key;
`mapLookup` finds the value of the key. -/
def mapLookup {β : Type u} {α : Type v} [DecidableEq β] (k : β) : List (β × α) → Option α
  | [] => none
  | (k0, v0) :: rest => if k0 = k then some v0 else mapLookup k rest

def mapSet {β : Type u} {α : Type v} [DecidableEq β] (k : β) (v : α) : List (β × α) → List (β × α)
  | [] => [(k, v)]
  | (k0, v0) :: rest => if k0 = k then (k, v) :: rest else (k0, v0) :: mapSet k v rest

def mapDelete {β : Type u} {α : Type v} [DecidableEq β] (k : β) : List (β × α) → List (β × α)
  | [] => []
  | (k0, v0) :: rest => if k0 = k then rest else (k0, v0) :: mapDelete k rest

/-! ## JavaScript string utilities on lists of characters -/
/-- models the whitespace class recognized by the JavaScript string trim method,
restricted to the usual ASCII whitespace characters. -/
def isWsChar (c : Char) : Bool :=
  c = ' ' || c = '\t' || c = '\n' || c = '\r' || c = '\x0b' || c = '\x0c'

/-- models the JavaScript string trim method: remove leading and trailing
whitespace. -/
def jsTrim (l : List Char) : List Char :=
  ((l.dropWhile isWsChar).reverse.dropWhile isWsChar).reverse

/-- models String.prototype.split with a single-character separator, written with
an accumulator for the current segment (kept reversed while scanning). -/
def splitCharAux (sep : Char) (cur : List Char) : List Char → List (List Char)
  | [] => [cur.reverse]
  | c :: cs =>
    if c = sep then cur.reverse :: splitCharAux sep [] cs
    else splitCharAux sep (c :: cur) cs

def splitChar (sep : Char) (l : List Char) : List (List Char) :=
  splitCharAux sep [] l

/-- splits a list at the first occurrence of the separator, dropping the
separator itself; when the separator does not occur the second component is
empty. -/
def splitFirst (sep : Char) : List Char → List Char × List Char
  | [] => ([], [])
  | c :: cs =>
    if c = sep then ([], cs)
    else ((splitFirst sep cs).1.cons c, (splitFirst sep cs).2)

/-- strips a concrete expected prefix, returning the remainder when the input
starts with that prefix and nothing otherwise. -/
def dropPre : List Char → List Char → Option (List Char)
  | [], l => some l
  | _ :: _, [] => none
  | p :: ps, c :: cs => if c = p then dropPre ps cs else none

/-! ## Identifier normalizer (normalizeVideoId in server/index.js) -/
/-- models the character class of the video id regular expression, which is
written as a range over a-z, A-Z, 0-9, underscore and hyphen. -/
def isIdChar (c : Char) : Bool :=
  c.isAlphanum || c = '_' || c = '-'

/-- models a full match of the id pattern: exactly eleven characters from the
id character class. -/
def isValidIdList (l : List Char) : Bool :=
  l.length = 11 && l.all isIdChar

def isValidId (s : String) : Bool :=
  isValidIdList s.data

structure URLParts where
  host : List Char
  pathname : List Char
  query : List (List Char × List Char)

/-- models the WHATWG URL parser invoked through the platform constructor
new URL, an external built-in, restricted to the http and https shapes this
server receives: a scheme, a nonempty host read up to the first slash, question
mark or hash, then the pathname up to the first question mark, then the query
string split on ampersands into key-value pairs split on the first equals sign.
An input without an http or https scheme, or with an empty host, fails to parse,
matching the constructor throwing. An empty path reads as the root path. -/
def parseURL (l : List Char) : Option URLParts :=
  let rest? : Option (List Char) :=
    match dropPre "https://".data l with
    | some r => some r
    | none => dropPre "http://".data l
  match rest? with
  | none => none
  | some rest =>
    let host := rest.takeWhile (fun c => !(c = '/' || c = '?' || c = '#'))
    if host.isEmpty then none
    else
      let after := rest.drop host.length
      let pq := splitFirst '?' after
      some { host := host
             pathname := if pq.1.isEmpty then ['/'] else pq.1
             query := (splitChar '&' pq.2).map (splitFirst '=') }

/-- models normalizeVideoId from server/index.js: an empty (falsy) input is
rejected; the input is trimmed; an exact eleven-character id is returned
unchanged; otherwise the input is parsed as a URL and the v query parameter is
taken when it is a valid id, else the last nonempty path segment is taken
unless the first segment is the watch marker; a parse failure or the lack of a
valid candidate yields none. -/
def normalizeVideoIdList (l : List Char) : Option (List Char) :=
  if l.isEmpty then none
  else
    let input := jsTrim l
    if isValidIdList input then some input
    else
      match parseURL input with
      | none => none
      | some u =>
        let vCand : Option (List Char) :=
          match mapLookup "v".data u.query with
          | some v => if isValidIdList v then some v else none
          | none => none
        match vCand with
        | some v => some v
        | none =>
          let parts := (splitChar '/' u.pathname).filter (fun p => !p.isEmpty)
          let candidate : Option (List Char) :=
            match parts with
            | [] => none
            | p :: _ => if p = "watch".data then none else parts.getLast?
          match candidate with
          | some c => if isValidIdList c then some c else none
          | none => none

def normalizeVideoId (s : String) : Option String :=
  (normalizeVideoIdList s.data).map String.mk

/-! ## Resolution caches (streamUrlCache and videoInfoCache in server/index.js) -/
def STREAM_CACHE_TTL_MS : Nat := 3 * 60 * 60 * 1000

def INFO_CACHE_TTL_MS : Nat := 24 * 60 * 60 * 1000

structure StreamCacheEntry where
  url : String
  timestamp : Nat
deriving DecidableEq, Repr

structure VideoInfo where
  videoId : String
  title : String
  channelName : String
  thumbnail : String
  duration : Nat
deriving DecidableEq, Repr

structure VideoInfoEntry where
  info : VideoInfo
  timestamp : Nat
deriving DecidableEq, Repr

/-- models getCachedStreamUrl: a lookup in the stream URL Map that returns null on
absence, deletes the entry and returns null when it is older than the TTL, and
returns the cached url otherwise; the possibly-updated Map is returned alongside. -/
def getCachedStreamUrl (now : Nat) (videoId : String)
    (cache : List (String × StreamCacheEntry)) :
    Option String × List (String × StreamCacheEntry) :=
  match mapLookup videoId cache with
  | none => (none, cache)
  | some cached =>
    if now - cached.timestamp > STREAM_CACHE_TTL_MS then (none, mapDelete videoId cache)
    else (some cached.url, cache)

/-- models setCachedStreamUrl: stores the url stamped with the current time. -/
def setCachedStreamUrl (now : Nat) (videoId url : String)
    (cache : List (String × StreamCacheEntry)) : List (String × StreamCacheEntry) :=
  mapSet videoId { url := url, timestamp := now } cache

/-- models getCachedVideoInfo: same shape as getCachedStreamUrl but over the video
info Map and the longer info TTL. -/
def getCachedVideoInfo (now : Nat) (videoId : String)
    (cache : List (String × VideoInfoEntry)) :
    Option VideoInfo × List (String × VideoInfoEntry) :=
  match mapLookup videoId cache with
  | none => (none, cache)
  | some cached =>
    if now - cached.timestamp > INFO_CACHE_TTL_MS then (none, mapDelete videoId cache)
    else (some cached.info, cache)

/-- models setCachedVideoInfo: stores the info stamped with the current time. -/
def setCachedVideoInfo (now : Nat) (videoId : String) (info : VideoInfo)
    (cache : List (String × VideoInfoEntry)) : List (String × VideoInfoEntry) :=
  mapSet videoId { info := info, timestamp := now } cache

/-! ## Unbounded growth of the plain-Map caches -/
/-- performs one setCachedStreamUrl per identifier in order, at a fixed time. -/
def putManyStreamUrls (now : Nat) (ids : List String)
    (cache : List (String × StreamCacheEntry)) : List (String × StreamCacheEntry) :=
  ids.foldl (fun c id => setCachedStreamUrl now id "https://upstream.example/a" c) cache

/-- performs one setCachedVideoInfo per identifier in order, at a fixed time. -/
def putManyVideoInfos (now : Nat) (ids : List String)
    (cache : List (String × VideoInfoEntry)) : List (String × VideoInfoEntry) :=
  ids.foldl
    (fun c id =>
      setCachedVideoInfo now id
        { videoId := id, title := "t", channelName := "c", thumbnail := "", duration := 0 } c)
    cache

/-- builds n pairwise distinct identifier strings. -/
def distinctIds (n : Nat) : List String :=
  (List.range n).map (fun i => String.mk (List.replicate i 'a'))

/-! ## Audio format selection

The current server (server/index.js) selects inside fetchStreamUrl: it filters the
format list with the audioonly filter of the ytdl-core library and then reduces
to the entry with the highest audioBitrate. The historical variant
(.history/server/index_20260113173543.js) instead scores formats by container
priority, bitrate, size and protocol in selectFastestAudioFormat. Both are
embedded below. -/
structure YtdlFormat where
  url : Option String
  mimeType : String
  audioBitrate : Option Nat
  hasAudio : Bool
  hasVideo : Bool
deriving DecidableEq, Repr

/-- models the audioonly filter of the external ytdl-core library, documented as
keeping the formats that carry audio and no video. -/
def filterAudioOnly (formats : List YtdlFormat) : List YtdlFormat :=
  formats.filter (fun f => f.hasAudio && !f.hasVideo)

/-- models the reduce call in fetchStreamUrl: starting from the first audio format,
keep the format whose audioBitrate (defaulting to 0 when absent) is strictly
higher than the best so far; the JavaScript reduce with an initial value also
visits element 0, which is harmless and reproduced here. -/
def pickBestAudio : List YtdlFormat → Option YtdlFormat
  | [] => none
  | f :: fs =>
    some ((f :: fs).foldl
      (fun best fmt =>
        if fmt.audioBitrate.getD 0 > best.audioBitrate.getD 0 then fmt else best) f)

/-- models the format-choice portion of fetchStreamUrl: filter to audio-only
formats, throw when none remain, reduce to the highest bitrate, and throw when
the chosen format lacks a (truthy) url. -/
def fetchStreamUrlFormatChoice (formats : List YtdlFormat) : Except String YtdlFormat :=
  let audioFormats := filterAudioOnly formats
  match pickBestAudio audioFormats with
  | none => .error "No audio formats found"
  | some best =>
    match best.url with
    | some u => if u = "" then .error "No stream URL found" else .ok best
    | none => .error "No stream URL found"

structure DlpFormat where
  url : Option String
  vcodec : Option String
  acodec : Option String
  filesize : Option ℚ
  container : Option String
  ext : Option String
  abr : Option ℚ
  protocol : Option String
deriving DecidableEq, Repr

/-- models the JavaScript expression a || b over possibly-absent strings: an
absent or empty left operand falls through to the right operand. -/
def jsStrOr (o : Option String) (d : String) : String :=
  match o with
  | some s => if s = "" then d else s
  | none => d

/-- models the audio filter of selectFastestAudioFormat: video codec none, audio
codec strictly unequal to none (an absent codec passes), and a truthy filesize
below 50 MiB. -/
def dlpAudioFilter (f : DlpFormat) : Bool :=
  f.vcodec == some "none" && !(f.acodec == some "none")
    && (match f.filesize with
        | some sz => sz != 0 && decide (sz < 50 * 1024 * 1024)
        | none => false)

/-- models the toLowerCase method of JavaScript strings restricted to ASCII,
applied character by character. -/
def jsToLower (s : String) : String :=
  String.mk (s.data.map Char.toLower)

/-- models the container field used for scoring: container falling back to ext
falling back to the empty string, lowercased. -/
def dlpContainer (f : DlpFormat) : String :=
  jsToLower (jsStrOr f.container (jsStrOr f.ext ""))

def formatPriority : List (String × ℚ) :=
  [("m4a", 10), ("mp4", 9), ("webm", 8), ("mp3", 7), ("opus", 6)]

/-- models the priority lookup: first matching container in the priority table,
defaulting to 1. -/
def dlpPriority (container : String) : ℚ :=
  match mapLookup container formatPriority with
  | some p => p
  | none => 1

/-- models the score of one format: container priority times 1000, plus the
bitrate when truthy, plus 100 minus the size in MiB when the size is truthy,
plus 500 for segmented dash delivery. -/
def dlpScore (f : DlpFormat) : ℚ :=
  let s1 : ℚ := dlpPriority (dlpContainer f) * 1000
  let s2 : ℚ := s1 + (match f.abr with
    | some a => if a = 0 then 0 else a
    | none => 0)
  let s3 : ℚ := s2 + (match f.filesize with
    | some sz => if sz = 0 then 0 else 100 - sz / (1024 * 1024)
    | none => 0)
  s3 + (if f.protocol == some "http_dash_segments" then 500 else 0)

/-- models the stable descending sort on score followed by taking element 0: the
first format attaining the maximal score. -/
def pickTopScored : List (DlpFormat × ℚ) → Option DlpFormat
  | [] => none
  | p :: ps =>
    some ((ps.foldl (fun best q => if q.2 > best.2 then q else best) p).1)

/-- models selectFastestAudioFormat from the historical variant: filter to audio
formats, return null when the input list or the filtered pool is empty, then
score and return the top-scoring format. -/
def selectFastestAudioFormat (formats : List DlpFormat) : Option DlpFormat :=
  if formats.isEmpty then none
  else
    let audioFormats := formats.filter dlpAudioFilter
    if audioFormats.isEmpty then none
    else pickTopScored (audioFormats.map (fun f => (f, dlpScore f)))

/-- synthetic audio-mp4 candidate at 128 kbps, non-segmented, 2 MiB. -/
def mp4YtdlCandidate : YtdlFormat :=
  { url := some "https://upstream.example/audio.m4a", mimeType := "audio/mp4",
    audioBitrate := some 128, hasAudio := true, hasVideo := false }

/-- synthetic audio-webm candidate at 256 kbps, non-segmented, 4 MiB. -/
def webmYtdlCandidate : YtdlFormat :=
  { url := some "https://upstream.example/audio.webm", mimeType := "audio/webm",
    audioBitrate := some 256, hasAudio := true, hasVideo := false }

/-- the same mp4 candidate in the field shape of the historical variant. -/
def mp4DlpCandidate : DlpFormat :=
  { url := some "https://upstream.example/audio.m4a", vcodec := some "none",
    acodec := some "mp4a.40.2", filesize := some (2 * 1024 * 1024),
    container := some "mp4", ext := some "mp4", abr := some 128,
    protocol := some "https" }

/-- the same webm candidate in the field shape of the historical variant. -/
def webmDlpCandidate : DlpFormat :=
  { url := some "https://upstream.example/audio.webm", vcodec := some "none",
    acodec := some "opus", filesize := some (4 * 1024 * 1024),
    container := some "webm", ext := some "webm", abr := some 256,
    protocol := some "https" }

/-! ## Stream resolution state machine (fetchStreamUrl in server/index.js)

The promise-based deduplication is embedded as an explicit step machine. A call
to fetchStreamUrl runs synchronously up to its first suspension: the cache check
(with lazy eviction), the pending-Map check, and otherwise the creation of one
new work item (one invocation of the extraction work), registered in the pending
Map under the video id before any other request can run. Settlement of a work
item is a separate step: the async body caches the url on success, leaves the
cache untouched on failure, always deletes the pending entry in its finally
block, and resolves the shared promise all attached callers hold. -/
inductive Outcome where
  | resolved (url : String)
  | failed (msg : String)
deriving DecidableEq, Repr

inductive FetchResult where
  | cachedHit (url : String)
  | awaiting (promiseId : Nat)
deriving DecidableEq, Repr

structure StreamState where
  streamCache : List (String × StreamCacheEntry)
  pendingStream : List (String × Nat)
  nextPromiseId : Nat
  workInvocations : Nat
  settled : List (Nat × Outcome)
deriving DecidableEq, Repr

def initialStreamState : StreamState :=
  { streamCache := [], pendingStream := [], nextPromiseId := 0,
    workInvocations := 0, settled := [] }

/-- models one call to fetchStreamUrl up to its first suspension point. -/
def fetchStreamUrlCall (now : Nat) (videoId : String) (s : StreamState) :
    FetchResult × StreamState :=
  match getCachedStreamUrl now videoId s.streamCache with
  | (some url, cache1) => (.cachedHit url, { s with streamCache := cache1 })
  | (none, cache1) =>
    let s1 := { s with streamCache := cache1 }
    match mapLookup videoId s1.pendingStream with
    | some p => (.awaiting p, s1)
    | none =>
      (.awaiting s1.nextPromiseId,
        { s1 with
            pendingStream := mapSet videoId s1.nextPromiseId s1.pendingStream,
            nextPromiseId := s1.nextPromiseId + 1,
            workInvocations := s1.workInvocations + 1 })

/-- models settlement of the in-flight extraction work for the video id. -/
def settleStreamWork (now : Nat) (videoId : String) (o : Outcome) (s : StreamState) :
    StreamState :=
  let settled1 :=
    match mapLookup videoId s.pendingStream with
    | some p => mapSet p o s.settled
    | none => s.settled
  match o with
  | .resolved url =>
    { s with streamCache := setCachedStreamUrl now videoId url s.streamCache,
             pendingStream := mapDelete videoId s.pendingStream,
             settled := settled1 }
  | .failed _ =>
    { s with pendingStream := mapDelete videoId s.pendingStream,
             settled := settled1 }

/-- runs n calls to fetchStreamUrl for the same id back to back, collecting each
result of each caller. -/
def runArrivals (now : Nat) (videoId : String) : Nat → StreamState → List FetchResult × StreamState
  | 0, s => ([], s)
  | n + 1, s =>
    let r := fetchStreamUrlCall now videoId s
    let rest := runArrivals now videoId n r.2
    (r.1 :: rest.1, rest.2)

/-- reads the outcome a caller observes: a cache hit is an already-resolved url,
an attached caller observes the settlement of its promise. -/
def callerOutcome (s : StreamState) : FetchResult → Option Outcome
  | .cachedHit url => some (.resolved url)
  | .awaiting p => mapLookup p s.settled

/-- state reached after the first cold call for an id: one work invocation,
one pending entry under promise 0. -/
def coldCallState (videoId : String) : StreamState :=
  { streamCache := [], pendingStream := [(videoId, 0)], nextPromiseId := 1,
    workInvocations := 1, settled := [] }

/-! ## Stream relay headers (the GET /api/stream/:videoId handler) -/
structure UpstreamRequestHeaders where
  userAgent : String
  range : Option String
deriving DecidableEq, Repr

/-- models the construction of the upstream fetch headers: a fixed user agent,
plus the inbound Range header copied over only when it is truthy (present and
nonempty). -/
def buildUpstreamHeaders (reqRange : Option String) : UpstreamRequestHeaders :=
  let base : UpstreamRequestHeaders :=
    { userAgent := "Mozilla/5.0 (Windows NT 10.0; Win64; x64) AppleWebKit/537.36",
      range := none }
  match reqRange with
  | some r => if r = "" then base else { base with range := some r }
  | none => base

structure UpstreamResponse where
  status : Nat
  contentType : Option String
  contentLength : Option String
  contentRange : Option String
  acceptRanges : Option String
deriving DecidableEq, Repr

structure ClientHead where
  status : Nat
  cacheControl : String
  acceptRanges : String
  contentType : String
  contentLength : Option String
  contentRange : Option String
deriving DecidableEq, Repr

/-- models the truthiness guard before setHeader: a header is set only when the
upstream value is present and nonempty. -/
def jsHeaderOpt (o : Option String) : Option String :=
  match o with
  | some s => if s = "" then none else some s
  | none => none

/-- models the response-header block of the stream handler: copy the upstream
status, set a fixed cache control, default accept-ranges to bytes and
content-type to audio/mp4 when upstream omits them, and copy content-length and
content-range only when present. -/
def relayUpstreamHead (u : UpstreamResponse) : ClientHead :=
  { status := u.status
    cacheControl := "public, max-age=7200"
    acceptRanges := jsStrOr u.acceptRanges "bytes"
    contentType := jsStrOr u.contentType "audio/mp4"
    contentLength := jsHeaderOpt u.contentLength
    contentRange := jsHeaderOpt u.contentRange }

/-! ## Stream endpoint error handling -/
/-- checks whether the pattern occurs as a contiguous substring, mirroring the
includes method of JavaScript strings. -/
def listStarts : List Char → List Char → Bool
  | _, [] => true
  | [], _ :: _ => false
  | c :: cs, p :: ps => c = p && listStarts cs ps

def listContains (hay pat : List Char) : Bool :=
  match hay with
  | [] => pat.isEmpty
  | _ :: rest => listStarts hay pat || listContains rest pat

def containsSubstring (s pat : String) : Bool :=
  listContains s.data pat.data

structure ErrorBody where
  error : String
  videoId : String
  suggestion : Option String
  details : Option String
deriving DecidableEq, Repr

inductive ResolveOutcome where
  | ok (url : String)
  | err (msg : String) (stack : String)
deriving DecidableEq, Repr

inductive StreamResponse where
  | invalidId (status : Nat) (body : ErrorBody)
  | resolveError (status : Nat) (body : ErrorBody)
  | relaying (url : String)
deriving DecidableEq, Repr

def suggestionText : String :=
  "This video may be restricted, unavailable, or require age verification."

/-- models the GET stream handler up to the upstream fetch: an invalid id is
rejected with a 400 body naming the raw id before any resolution work runs; a
resolution failure before headers are sent produces a JSON body with the error
message (defaulted when falsy), the id, a fixed suggestion, and stack details
only in the development configuration, under status 404 when the message
mentions unavailable and 500 otherwise; a successful resolution proceeds to
relay the resolved url. -/
def getStreamResponse (env : String) (rawId : String)
    (resolve : String → ResolveOutcome) : StreamResponse :=
  match normalizeVideoId rawId with
  | none =>
    .invalidId 400
      { error := "Invalid video ID", videoId := rawId, suggestion := none, details := none }
  | some videoId =>
    match resolve videoId with
    | .ok url => .relaying url
    | .err msg stack =>
      let errorMessage := if msg = "" then "Failed to stream audio" else msg
      .resolveError (if containsSubstring errorMessage "unavailable" then 404 else 500)
        { error := errorMessage, videoId := videoId, suggestion := some suggestionText,
          details := if env = "development" then some stack else none }

/-! ## HEAD endpoint (the HEAD /api/stream/:videoId handler) -/
/-- models the HEAD stream handler: an invalid id is a bare 400; otherwise the
handler replies 200 immediately (whether or not the url is cached) and, on a
cache miss, starts a background fetchStreamUrl whose failure is swallowed by an
empty catch, so no outcome of that work can change the already-sent status. -/
def headStreamHandler (now : Nat) (rawId : String) (s : StreamState) :
    Nat × StreamState :=
  match normalizeVideoId rawId with
  | none => (400, s)
  | some videoId =>
    match getCachedStreamUrl now videoId s.streamCache with
    | (some _, cache1) => (200, { s with streamCache := cache1 })
    | (none, cache1) =>
      (200, (fetchStreamUrlCall now videoId { s with streamCache := cache1 }).2)

/-- synthetic video-carrying candidate, removed by the audio-only filter. -/
def videoYtdlCandidate : YtdlFormat :=
  { url := some "https://upstream.example/video.mp4", mimeType := "video/mp4",
    audioBitrate := some 128, hasAudio := true, hasVideo := true }

/-- synthetic 206 upstream answer to a bytes 100-199 range request on a
1000-byte resource. -/
def upstream206 : UpstreamResponse :=
  { status := 206, contentType := none, contentLength := some "100",
    contentRange := some "bytes 100-199/1000", acceptRanges := none }

/-! ## Verified properties -/

theorem mapLookup_mapSet_self {β : Type u} {α : Type v} [DecidableEq β]
    (k : β) (v : α) (m : List (β × α)) : mapLookup k (mapSet k v m) = some v := by
  induction m with
  | nil => simp [mapSet, mapLookup]
  | cons hd tl ih =>
    obtain ⟨k0, v0⟩ := hd
    by_cases h : k0 = k
    · simp [mapSet, h, mapLookup]
    · simp [mapSet, h, mapLookup, ih]

theorem mapLookup_of_notMem {β : Type u} {α : Type v} [DecidableEq β]
    (k : β) (m : List (β × α)) (h : k ∉ m.map Prod.fst) : mapLookup k m = none := by
  induction m with
  | nil => rfl
  | cons hd tl ih =>
    obtain ⟨k0, v0⟩ := hd
    simp only [List.map_cons, List.mem_cons] at h
    push_neg at h
    simp only [mapLookup, if_neg (fun h0 : k0 = k => h.1 h0.symm)]
    exact ih h.2

theorem mapLookup_mapDelete_self {β : Type u} {α : Type v} [DecidableEq β]
    (k : β) (m : List (β × α)) (hnd : (m.map Prod.fst).Nodup) :
    mapLookup k (mapDelete k m) = none := by
  induction m with
  | nil => rfl
  | cons hd tl ih =>
    obtain ⟨k0, v0⟩ := hd
    simp only [List.map_cons, List.nodup_cons] at hnd
    by_cases h : k0 = k
    · subst h
      simp only [mapDelete, if_pos rfl]
      exact mapLookup_of_notMem k0 tl hnd.1
    · simp only [mapDelete, if_neg h, mapLookup]
      exact ih hnd.2

theorem mapSet_of_notMem {β : Type u} {α : Type v} [DecidableEq β]
    (k : β) (v : α) (m : List (β × α)) (h : k ∉ m.map Prod.fst) :
    mapSet k v m = m ++ [(k, v)] := by
  induction m with
  | nil => rfl
  | cons hd tl ih =>
    obtain ⟨k0, v0⟩ := hd
    simp only [List.map_cons, List.mem_cons] at h
    push_neg at h
    simp only [mapSet, if_neg (fun h0 : k0 = k => h.1 h0.symm), ih h.2]
    simp

theorem mapDelete_length_of_mem {β : Type u} {α : Type v} [DecidableEq β]
    (k : β) (m : List (β × α)) (h : k ∈ m.map Prod.fst) :
    (mapDelete k m).length + 1 = m.length := by
  induction m with
  | nil => simp at h
  | cons hd tl ih =>
    obtain ⟨k0, v0⟩ := hd
    by_cases h0 : k0 = k
    · simp [mapDelete, h0]
    · simp only [List.map_cons, List.mem_cons] at h
      rcases h with h | h
      · exact absurd h.symm h0
      · simp [mapDelete, h0, ih h]

theorem dropWhile_eq_self_of_all {p : Char → Bool} {l : List Char}
    (h : ∀ c ∈ l, p c = false) : l.dropWhile p = l := by
  cases l with
  | nil => rfl
  | cons c cs => simp [List.dropWhile, h c (List.mem_cons_self c cs)]

theorem jsTrim_eq_self_of_all {l : List Char}
    (h : ∀ c ∈ l, isWsChar c = false) : jsTrim l = l := by
  unfold jsTrim
  rw [dropWhile_eq_self_of_all h]
  rw [dropWhile_eq_self_of_all (fun c hc => h c (List.mem_reverse.mp hc))]
  exact List.reverse_reverse l

theorem splitCharAux_of_nosep (sep : Char) (cur l : List Char)
    (h : ∀ c ∈ l, c ≠ sep) : splitCharAux sep cur l = [cur.reverse ++ l] := by
  induction l generalizing cur with
  | nil => simp [splitCharAux]
  | cons c cs ih =>
    rw [splitCharAux, if_neg (h c (List.mem_cons_self c cs))]
    rw [ih (c :: cur) (fun d hd => h d (List.mem_cons_of_mem c hd))]
    simp

theorem splitChar_of_nosep (sep : Char) (l : List Char)
    (h : ∀ c ∈ l, c ≠ sep) : splitChar sep l = [l] := by
  simpa using splitCharAux_of_nosep sep [] l h

theorem splitFirst_of_nosep (sep : Char) (l : List Char)
    (h : ∀ c ∈ l, c ≠ sep) : splitFirst sep l = (l, []) := by
  induction l with
  | nil => rfl
  | cons c cs ih =>
    rw [splitFirst, if_neg (h c (List.mem_cons_self c cs))]
    rw [ih (fun d hd => h d (List.mem_cons_of_mem c hd))]

theorem dropPre_append (p l : List Char) : dropPre p (p ++ l) = some l := by
  induction p with
  | nil => rfl
  | cons c cs ih => simp [dropPre, ih]

theorem isWsChar_eq_false_of_isIdChar {c : Char} (h : isIdChar c = true) :
    isWsChar c = false := by
  by_contra hw
  rw [Bool.not_eq_false] at hw
  unfold isWsChar at hw
  simp only [Bool.or_eq_true, decide_eq_true_eq] at hw
  rcases hw with ((((h1 | h1) | h1) | h1) | h1) | h1 <;> subst h1 <;>
    exact absurd h (by decide)

theorem isIdChar_ne {c : Char} (h : isIdChar c = true) :
    c ≠ '&' ∧ c ≠ '=' ∧ c ≠ '/' ∧ c ≠ '?' ∧ c ≠ '#' := by
  refine ⟨?_, ?_, ?_, ?_, ?_⟩ <;> intro he <;> subst he <;> exact absurd h (by decide)

theorem isValidIdList_elim {l : List Char} (h : isValidIdList l = true) :
    l.length = 11 ∧ ∀ c ∈ l, isIdChar c = true := by
  unfold isValidIdList at h
  simp only [Bool.and_eq_true, decide_eq_true_eq, List.all_eq_true] at h
  exact h

theorem isEmpty_eq_false_of_valid {l : List Char} (h : isValidIdList l = true) :
    l.isEmpty = false := by
  have h1 := (isValidIdList_elim h).1
  cases l with
  | nil => simp at h1
  | cons a as => rfl

theorem normalizeVideoId_valid_identity (s : String) (h : isValidId s = true) :
    normalizeVideoId s = some s := by
  have h1 : isValidIdList s.data = true := h
  have h2 := isValidIdList_elim h1
  have htrim : jsTrim s.data = s.data :=
    jsTrim_eq_self_of_all (fun c hc => isWsChar_eq_false_of_isIdChar (h2.2 c hc))
  unfold normalizeVideoId normalizeVideoIdList
  rw [isEmpty_eq_false_of_valid h1]
  simp only [Bool.false_eq_true, if_false, htrim, h1, if_true, Option.map_some']

theorem normalizeVideoId_watch_url (id : String) (h : isValidId id = true) :
    normalizeVideoId ("https://y/watch?v=" ++ id) = some id := by
  have h1 : isValidIdList id.data = true := h
  have h2 := isValidIdList_elim h1
  have hdata : ("https://y/watch?v=" ++ id).data = "https://y/watch?v=".data ++ id.data :=
    String.data_append ..
  have hws : ∀ c ∈ "https://y/watch?v=".data ++ id.data, isWsChar c = false := by
    rw [List.forall_mem_append]
    exact ⟨by decide, fun c hc => isWsChar_eq_false_of_isIdChar (h2.2 c hc)⟩
  have htrim : jsTrim ("https://y/watch?v=".data ++ id.data) =
      "https://y/watch?v=".data ++ id.data := jsTrim_eq_self_of_all hws
  have hne : ("https://y/watch?v=".data ++ id.data).isEmpty = false := rfl
  have hnotid : isValidIdList ("https://y/watch?v=".data ++ id.data) = false := by
    unfold isValidIdList
    rw [List.length_append, h2.1]
    rw [show ("https://y/watch?v=".data.length : Nat) = 18 from rfl]
    simp
  have hamp : ∀ c ∈ ('v' :: '=' :: id.data), c ≠ '&' := by
    intro c hc
    rcases hc with _ | ⟨_, hc⟩
    · decide
    rcases hc with _ | ⟨_, hc⟩
    · decide
    · exact (isIdChar_ne (h2.2 c hc)).1
  have hquery : splitChar '&' ('v' :: '=' :: id.data) = ['v' :: '=' :: id.data] :=
    splitChar_of_nosep '&' _ hamp
  have hparse : parseURL ("https://y/watch?v=".data ++ id.data) =
      some { host := ['y'], pathname := "/watch".data, query := [(['v'], id.data)] } := by
    have hassoc : "https://y/watch?v=".data ++ id.data =
        "https://".data ++ ("y/watch?v=".data ++ id.data) := by
      rw [show "https://y/watch?v=".data = "https://".data ++ "y/watch?v=".data from rfl]
      rw [List.append_assoc]
    unfold parseURL
    rw [hassoc, dropPre_append]
    show some ({ host := ['y'], pathname := "/watch".data,
                 query := List.map (splitFirst '=') (splitChar '&' ('v' :: '=' :: id.data)) } : URLParts) =
      some { host := ['y'], pathname := "/watch".data, query := [(['v'], id.data)] }
    rw [hquery]
    rfl
  unfold normalizeVideoId normalizeVideoIdList
  rw [hdata, hne]
  rw [if_neg (by simp)]
  rw [htrim]
  simp only [hnotid, Bool.false_eq_true, if_false, hparse]
  simp [mapLookup, h1]

theorem normalizeVideoId_embed_url (id : String) (h : isValidId id = true) :
    normalizeVideoId ("https://y/embed/" ++ id) = some id := by
  have h1 : isValidIdList id.data = true := h
  have h2 := isValidIdList_elim h1
  have hidne : id.data.isEmpty = false := isEmpty_eq_false_of_valid h1
  have hdata : ("https://y/embed/" ++ id).data = "https://y/embed/".data ++ id.data :=
    String.data_append ..
  have hws : ∀ c ∈ "https://y/embed/".data ++ id.data, isWsChar c = false := by
    rw [List.forall_mem_append]
    exact ⟨by decide, fun c hc => isWsChar_eq_false_of_isIdChar (h2.2 c hc)⟩
  have htrim : jsTrim ("https://y/embed/".data ++ id.data) =
      "https://y/embed/".data ++ id.data := jsTrim_eq_self_of_all hws
  have hne : ("https://y/embed/".data ++ id.data).isEmpty = false := rfl
  have hnotid : isValidIdList ("https://y/embed/".data ++ id.data) = false := by
    unfold isValidIdList
    rw [List.length_append, h2.1]
    rw [show ("https://y/embed/".data.length : Nat) = 16 from rfl]
    simp
  have hsf : splitFirst '?' ("/embed/".data ++ id.data) = ("/embed/".data ++ id.data, []) := by
    apply splitFirst_of_nosep
    rw [List.forall_mem_append]
    exact ⟨by decide, fun c hc => (isIdChar_ne (h2.2 c hc)).2.2.2.1⟩
  have hpe : ("/embed/".data ++ id.data).isEmpty = false := rfl
  have hparse : parseURL ("https://y/embed/".data ++ id.data) =
      some { host := ['y'], pathname := "/embed/".data ++ id.data, query := [([], [])] } := by
    have hassoc : "https://y/embed/".data ++ id.data =
        "https://".data ++ ("y/embed/".data ++ id.data) := by
      rw [show "https://y/embed/".data = "https://".data ++ "y/embed/".data from rfl]
      rw [List.append_assoc]
    have step1 : parseURL ("https://y/embed/".data ++ id.data) =
        some { host := ['y'],
               pathname := if (splitFirst '?' ("/embed/".data ++ id.data)).1.isEmpty = true then ['/']
                           else (splitFirst '?' ("/embed/".data ++ id.data)).1,
               query := List.map (splitFirst '=')
                          (splitChar '&' (splitFirst '?' ("/embed/".data ++ id.data)).2) } := by
      unfold parseURL
      rw [hassoc, dropPre_append]
      rfl
    rw [step1, hsf]
    simp only [hpe, Bool.false_eq_true, if_false]
    rfl
  have hnoslash : ∀ c ∈ id.data, c ≠ '/' := fun c hc => (isIdChar_ne (h2.2 c hc)).2.2.1
  have haux : splitCharAux '/' [] id.data = [id.data] := by
    rw [splitCharAux_of_nosep '/' [] id.data hnoslash]
    simp
  have hpair : ∀ a b : List Char, ([a, b] : List (List Char)).getLast? = some b :=
    fun a b => rfl
  unfold normalizeVideoId normalizeVideoIdList
  rw [hdata, hne]
  rw [if_neg (by simp)]
  rw [htrim]
  simp only [hnotid, Bool.false_eq_true, if_false, hparse]
  simp [mapLookup, haux, List.filter, hidne, hpair, h1]

example : normalizeVideoId "https://www.youtube.com/watch?v=dQw4w9WgXcQ" = some "dQw4w9WgXcQ" := by
  decide

example : normalizeVideoId "  dQw4w9WgXcQ  " = some "dQw4w9WgXcQ" := by decide

theorem mem_keys_of_mapLookup {β : Type u} {α : Type v} [DecidableEq β]
    {k : β} {m : List (β × α)} {v : α} (h : mapLookup k m = some v) :
    k ∈ m.map Prod.fst := by
  induction m with
  | nil => simp [mapLookup] at h
  | cons hd tl ih =>
    obtain ⟨k0, v0⟩ := hd
    by_cases h0 : k0 = k
    · simp [h0]
    · rw [mapLookup, if_neg h0] at h
      simp [ih h]

theorem getCachedStreamUrl_expired (now : Nat) (k : String)
    (cache : List (String × StreamCacheEntry)) (e : StreamCacheEntry)
    (hnd : (cache.map Prod.fst).Nodup) (hlk : mapLookup k cache = some e)
    (hexp : now - e.timestamp > STREAM_CACHE_TTL_MS) :
    (getCachedStreamUrl now k cache).1 = none
    ∧ mapLookup k (getCachedStreamUrl now k cache).2 = none
    ∧ (getCachedStreamUrl now k cache).2.length + 1 = cache.length := by
  unfold getCachedStreamUrl
  rw [hlk]
  simp only [if_pos hexp]
  exact ⟨trivial, mapLookup_mapDelete_self k cache hnd,
    mapDelete_length_of_mem k cache (mem_keys_of_mapLookup hlk)⟩

theorem getCachedVideoInfo_expired (now : Nat) (k : String)
    (cache : List (String × VideoInfoEntry)) (e : VideoInfoEntry)
    (hnd : (cache.map Prod.fst).Nodup) (hlk : mapLookup k cache = some e)
    (hexp : now - e.timestamp > INFO_CACHE_TTL_MS) :
    (getCachedVideoInfo now k cache).1 = none
    ∧ mapLookup k (getCachedVideoInfo now k cache).2 = none
    ∧ (getCachedVideoInfo now k cache).2.length + 1 = cache.length := by
  unfold getCachedVideoInfo
  rw [hlk]
  simp only [if_pos hexp]
  exact ⟨trivial, mapLookup_mapDelete_self k cache hnd,
    mapDelete_length_of_mem k cache (mem_keys_of_mapLookup hlk)⟩

theorem foldl_mapSet_length {β : Type u} {α : Type v} [DecidableEq β]
    (f : List (β × α) → β → α) (ids : List β) (m : List (β × α))
    (hnd : ids.Nodup) (hfresh : ∀ id ∈ ids, id ∉ m.map Prod.fst) :
    (ids.foldl (fun c id => mapSet id (f c id) c) m).length = m.length + ids.length := by
  induction ids generalizing m with
  | nil => simp
  | cons id rest ih =>
    rw [List.foldl_cons]
    have hidm : id ∉ m.map Prod.fst := hfresh id (List.mem_cons_self id rest)
    have hset : mapSet id (f m id) m = m ++ [(id, f m id)] := mapSet_of_notMem id (f m id) m hidm
    have hnd2 := (List.nodup_cons.mp hnd)
    have hfresh2 : ∀ j ∈ rest, j ∉ (mapSet id (f m id) m).map Prod.fst := by
      intro j hj
      rw [hset]
      simp only [List.map_append, List.mem_append, List.map_cons, List.map_nil,
        List.mem_singleton]
      push_neg
      exact ⟨hfresh j (List.mem_cons_of_mem id hj), fun hji => hnd2.1 (hji ▸ hj)⟩
    rw [ih (mapSet id (f m id) m) hnd2.2 hfresh2, hset]
    simp
    omega

theorem distinctIds_nodup (n : Nat) : (distinctIds n).Nodup := by
  unfold distinctIds
  refine List.Nodup.map ?_ (List.nodup_range n)
  intro i j hij
  have h := congrArg String.length hij
  simpa using h

theorem distinctIds_length (n : Nat) : (distinctIds n).length = n := by
  simp [distinctIds]

theorem putManyStreamUrls_empty_length (now n : Nat) :
    (putManyStreamUrls now (distinctIds n) []).length = n := by
  have h := foldl_mapSet_length
    (fun _ _ => ({ url := "https://upstream.example/a", timestamp := now } : StreamCacheEntry))
    (distinctIds n) [] (distinctIds_nodup n) (by simp)
  simpa [putManyStreamUrls, setCachedStreamUrl, distinctIds_length] using h

theorem putManyVideoInfos_empty_length (now n : Nat) :
    (putManyVideoInfos now (distinctIds n) []).length = n := by
  have h := foldl_mapSet_length
    (fun _ id =>
      ({ info := { videoId := id, title := "t", channelName := "c", thumbnail := "",
                   duration := 0 },
         timestamp := now } : VideoInfoEntry))
    (distinctIds n) [] (distinctIds_nodup n) (by simp)
  simpa [putManyVideoInfos, setCachedVideoInfo, distinctIds_length] using h

example : fetchStreamUrlFormatChoice [mp4YtdlCandidate, webmYtdlCandidate] =
    .ok webmYtdlCandidate := rfl

theorem dlpContainer_mp4 : dlpContainer mp4DlpCandidate = "mp4" := rfl

theorem dlpContainer_webm : dlpContainer webmDlpCandidate = "webm" := rfl

theorem dlpPriority_mp4 : dlpPriority "mp4" = 9 := rfl

theorem dlpPriority_webm : dlpPriority "webm" = 8 := rfl

theorem dlpScore_mp4 : dlpScore mp4DlpCandidate = 9226 := by
  have hpr : dlpPriority (dlpContainer mp4DlpCandidate) = 9 := by
    rw [dlpContainer_mp4]
    exact dlpPriority_mp4
  simp only [dlpScore, hpr,
    show mp4DlpCandidate.abr = some (128 : ℚ) from rfl,
    show mp4DlpCandidate.filesize = some ((2 : ℚ) * 1024 * 1024) from rfl,
    show mp4DlpCandidate.protocol = some "https" from rfl]
  norm_num
  decide

theorem dlpScore_webm : dlpScore webmDlpCandidate = 8352 := by
  have hpr : dlpPriority (dlpContainer webmDlpCandidate) = 8 := by
    rw [dlpContainer_webm]
    exact dlpPriority_webm
  simp only [dlpScore, hpr,
    show webmDlpCandidate.abr = some (256 : ℚ) from rfl,
    show webmDlpCandidate.filesize = some ((4 : ℚ) * 1024 * 1024) from rfl,
    show webmDlpCandidate.protocol = some "https" from rfl]
  norm_num
  decide

theorem dlpAudioFilter_mp4 : dlpAudioFilter mp4DlpCandidate = true := by
  simp only [dlpAudioFilter,
    show mp4DlpCandidate.vcodec = some "none" from rfl,
    show mp4DlpCandidate.acodec = some "mp4a.40.2" from rfl,
    show mp4DlpCandidate.filesize = some ((2 : ℚ) * 1024 * 1024) from rfl]
  norm_num
  decide

theorem dlpAudioFilter_webm : dlpAudioFilter webmDlpCandidate = true := by
  simp only [dlpAudioFilter,
    show webmDlpCandidate.vcodec = some "none" from rfl,
    show webmDlpCandidate.acodec = some "opus" from rfl,
    show webmDlpCandidate.filesize = some ((4 : ℚ) * 1024 * 1024) from rfl]
  norm_num
  decide

theorem selectFastest_pair :
    selectFastestAudioFormat [mp4DlpCandidate, webmDlpCandidate] = some mp4DlpCandidate := by
  unfold selectFastestAudioFormat
  have hf : List.filter dlpAudioFilter [mp4DlpCandidate, webmDlpCandidate] =
      [mp4DlpCandidate, webmDlpCandidate] := by
    simp [List.filter, dlpAudioFilter_mp4, dlpAudioFilter_webm]
  simp only [hf]
  have hmap : List.map (fun f => (f, dlpScore f)) [mp4DlpCandidate, webmDlpCandidate] =
      [(mp4DlpCandidate, (9226 : ℚ)), (webmDlpCandidate, (8352 : ℚ))] := by
    simp [dlpScore_mp4, dlpScore_webm]
  simp only [hmap]
  unfold pickTopScored
  have hcmp : ¬ ((8352 : ℚ) > 9226) := by norm_num
  simp [hcmp]

theorem fetchStreamUrlCall_initial (now : Nat) (videoId : String) :
    fetchStreamUrlCall now videoId initialStreamState =
      (.awaiting 0, coldCallState videoId) := rfl

theorem fetchStreamUrlCall_cold (now : Nat) (videoId : String) :
    fetchStreamUrlCall now videoId (coldCallState videoId) =
      (.awaiting 0, coldCallState videoId) := by
  unfold fetchStreamUrlCall coldCallState getCachedStreamUrl
  simp [mapLookup]

theorem runArrivals_cold (now : Nat) (videoId : String) (n : Nat) :
    runArrivals now videoId n (coldCallState videoId) =
      (List.replicate n (.awaiting 0), coldCallState videoId) := by
  induction n with
  | zero => simp [runArrivals]
  | succ m ih =>
    rw [runArrivals, fetchStreamUrlCall_cold, ih]
    simp [List.replicate]

theorem runArrivals_initial (now : Nat) (videoId : String) (n : Nat) (hn : 1 ≤ n) :
    runArrivals now videoId n initialStreamState =
      (List.replicate n (.awaiting 0), coldCallState videoId) := by
  obtain ⟨m, rfl⟩ : ∃ m, n = m + 1 := ⟨n - 1, by omega⟩
  rw [runArrivals, fetchStreamUrlCall_initial, runArrivals_cold]
  simp [List.replicate]

example : containsSubstring "Video unavailable" "unavailable" = true := by decide

example : containsSubstring "Status code 403" "unavailable" = false := by decide

theorem getCachedStreamUrl_none_stable (now : Nat) (id : String)
    (c : List (String × StreamCacheEntry)) (hnd : (c.map Prod.fst).Nodup)
    (h : (getCachedStreamUrl now id c).1 = none) :
    getCachedStreamUrl now id (getCachedStreamUrl now id c).2 =
      (none, (getCachedStreamUrl now id c).2) := by
  cases hlk : mapLookup id c with
  | none =>
    have h2 : getCachedStreamUrl now id c = (none, c) := by
      unfold getCachedStreamUrl
      rw [hlk]
    rw [h2]
    exact h2
  | some e =>
    by_cases hexp : now - e.timestamp > STREAM_CACHE_TTL_MS
    · have h2 : getCachedStreamUrl now id c = (none, mapDelete id c) := by
        unfold getCachedStreamUrl
        simp only [hlk]
        rw [if_pos hexp]
      rw [h2]
      show getCachedStreamUrl now id (mapDelete id c) = (none, mapDelete id c)
      unfold getCachedStreamUrl
      rw [mapLookup_mapDelete_self id c hnd]
    · have h2 : getCachedStreamUrl now id c = (some e.url, c) := by
        unfold getCachedStreamUrl
        simp only [hlk]
        rw [if_neg hexp]
      rw [h2] at h
      simp at h

/-! ## Claims -/
/-- C1: starting with no cached entry and nothing pending, n concurrent stream
resolutions for one identifier invoke the extraction work exactly once, keep at
most one extraction in flight in the stream deduplication namespace at every
point, attach every caller to that single work item, and deliver the identical
settled outcome (the resolved url, or the error) to all n callers. -/
theorem C1_dedup_single_flight (now now2 : Nat) (videoId : String) (n : Nat)
    (hn : 1 ≤ n) (o : Outcome) :
    (runArrivals now videoId n initialStreamState).2.workInvocations = 1
    ∧ (∀ k, k ≤ n →
        (runArrivals now videoId k initialStreamState).2.pendingStream.length ≤ 1)
    ∧ (∀ r ∈ (runArrivals now videoId n initialStreamState).1, r = .awaiting 0)
    ∧ (∀ r ∈ (runArrivals now videoId n initialStreamState).1,
        callerOutcome
          (settleStreamWork now2 videoId o (runArrivals now videoId n initialStreamState).2)
          r = some o) := by
  rw [runArrivals_initial now videoId n hn]
  refine ⟨rfl, ?_, ?_, ?_⟩
  · intro k hk
    cases k with
    | zero => simp [runArrivals, initialStreamState]
    | succ m =>
      rw [runArrivals_initial now videoId (m + 1) (by omega)]
      simp [coldCallState]
  · intro r hr
    exact List.eq_of_mem_replicate hr
  · intro r hr
    have hr0 := List.eq_of_mem_replicate hr
    subst hr0
    cases o with
    | resolved url =>
      simp [settleStreamWork, coldCallState, callerOutcome, mapLookup, mapSet]
    | failed msg =>
      simp [settleStreamWork, coldCallState, callerOutcome, mapLookup, mapSet]

theorem C1_dedup_single_flight_witness :
    1 ≤ 3
    ∧ (runArrivals 5 "dQw4w9WgXcQ" 3 initialStreamState).2.workInvocations = 1 :=
  ⟨by decide,
   (C1_dedup_single_flight 5 9 "dQw4w9WgXcQ" 3 (by decide)
      (.resolved "https://upstream.example/a")).1⟩

/-- C9: settling a failed resolution leaves the stream URL cache unchanged (no
entry is written for a failure), removes the pending entry for the identifier,
and a later request for the same still-uncached identifier starts a fresh
extraction under a new promise instead of observing a cached or stuck failure. -/
theorem C9_failed_resolution_cleanup (now now2 : Nat) (videoId msg : String)
    (s : StreamState)
    (hnd : (s.pendingStream.map Prod.fst).Nodup)
    (hmiss : mapLookup videoId s.streamCache = none) :
    (settleStreamWork now videoId (.failed msg) s).streamCache = s.streamCache
    ∧ mapLookup videoId (settleStreamWork now videoId (.failed msg) s).pendingStream = none
    ∧ (fetchStreamUrlCall now2 videoId (settleStreamWork now videoId (.failed msg) s)).1
        = .awaiting s.nextPromiseId
    ∧ (fetchStreamUrlCall now2 videoId (settleStreamWork now videoId (.failed msg) s)).2.workInvocations
        = s.workInvocations + 1 := by
  have hcache : (settleStreamWork now videoId (.failed msg) s).streamCache = s.streamCache :=
    rfl
  have hpend2 : mapLookup videoId (mapDelete videoId s.pendingStream) = none :=
    mapLookup_mapDelete_self videoId s.pendingStream hnd
  have hpend :
      mapLookup videoId (settleStreamWork now videoId (.failed msg) s).pendingStream = none := by
    show mapLookup videoId (mapDelete videoId s.pendingStream) = none
    exact hpend2
  have hget :
      getCachedStreamUrl now2 videoId (settleStreamWork now videoId (.failed msg) s).streamCache
        = (none, (settleStreamWork now videoId (.failed msg) s).streamCache) := by
    unfold getCachedStreamUrl
    rw [hcache, hmiss]
  refine ⟨hcache, hpend, ?_, ?_⟩ <;>
    · unfold fetchStreamUrlCall
      rw [hget]
      simp [hpend2, settleStreamWork]

theorem C9_failed_resolution_cleanup_witness :
    ((coldCallState "dQw4w9WgXcQ").pendingStream.map Prod.fst).Nodup
    ∧ mapLookup "dQw4w9WgXcQ" (coldCallState "dQw4w9WgXcQ").streamCache = none
    ∧ (settleStreamWork 0 "dQw4w9WgXcQ" (.failed "boom") (coldCallState "dQw4w9WgXcQ")).streamCache
        = (coldCallState "dQw4w9WgXcQ").streamCache :=
  ⟨by decide, by decide,
   (C9_failed_resolution_cleanup 0 1 "dQw4w9WgXcQ" "boom" (coldCallState "dQw4w9WgXcQ")
      (by decide) (by decide)).1⟩

/-- C10: the HEAD stream endpoint answers only 200 or 400; every well-formed
identifier gets a 200 no matter the cache state and no matter how the background
resolution would fare (its failure is swallowed, so 404 and 500 are impossible);
and on a cold identifier the handler starts exactly one background extraction. -/
theorem C10_head_probe_contract (now : Nat) (rawId : String) (s : StreamState) :
    ((headStreamHandler now rawId s).1 = 200 ∨ (headStreamHandler now rawId s).1 = 400)
    ∧ (∀ id, normalizeVideoId rawId = some id → (headStreamHandler now rawId s).1 = 200)
    ∧ (∀ id, normalizeVideoId rawId = some id →
        (s.streamCache.map Prod.fst).Nodup →
        (getCachedStreamUrl now id s.streamCache).1 = none →
        mapLookup id s.pendingStream = none →
        (headStreamHandler now rawId s).2.workInvocations = s.workInvocations + 1) := by
  unfold headStreamHandler
  cases hN : normalizeVideoId rawId with
  | none => simp
  | some id =>
    refine ⟨?_, ?_, ?_⟩
    · cases hG : getCachedStreamUrl now id s.streamCache with
      | mk fst cache1 => cases fst <;> simp [hG]
    · intro id2 hid2
      rw [Option.some.injEq] at hid2
      subst hid2
      cases hG : getCachedStreamUrl now id s.streamCache with
      | mk fst cache1 => cases fst <;> simp [hG]
    · intro id2 hid2 hnd hmiss hpend
      rw [Option.some.injEq] at hid2
      subst hid2
      cases hG : getCachedStreamUrl now id s.streamCache with
      | mk fst cache1 =>
        cases fst with
        | some u => rw [hG] at hmiss; simp at hmiss
        | none =>
          have hstable := getCachedStreamUrl_none_stable now id s.streamCache hnd
            (by rw [hG])
          rw [hG] at hstable
          simp only [hG]
          unfold fetchStreamUrlCall
          simp only [hstable]
          simp [hpend]

theorem C10_head_probe_contract_witness :
    normalizeVideoId "dQw4w9WgXcQ" = some "dQw4w9WgXcQ"
    ∧ (headStreamHandler 0 "dQw4w9WgXcQ" initialStreamState).1 = 200 :=
  ⟨by decide,
   (C10_head_probe_contract 0 "dQw4w9WgXcQ" initialStreamState).2.1 "dQw4w9WgXcQ" (by decide)⟩

/-- C2 as stated is false on the current server: fetchStreamUrl reduces the
audio-only pool by bitrate alone, so on the pair of the claim (one non-segmented
audio-mp4 at 128 kbps and one non-segmented audio-webm at 256 kbps, lengths
known) it selects the webm candidate, not the mp4. -/
theorem C2_counterexample :
    fetchStreamUrlFormatChoice [mp4YtdlCandidate, webmYtdlCandidate] = .ok webmYtdlCandidate
    ∧ webmYtdlCandidate ≠ mp4YtdlCandidate :=
  ⟨rfl, by decide⟩

/-- C2 amended: the current server filters to audio-only candidates and then
selects the highest reported bitrate with no container priority, returning the
webm candidate on the pair of the claim; the container-priority-before-bitrate
policy holds only in the historical selectFastestAudioFormat, which does return
the mp4 candidate on that pair. -/
theorem C2_selection_policy :
    filterAudioOnly [videoYtdlCandidate, mp4YtdlCandidate, webmYtdlCandidate]
        = [mp4YtdlCandidate, webmYtdlCandidate]
    ∧ fetchStreamUrlFormatChoice [mp4YtdlCandidate, webmYtdlCandidate] = .ok webmYtdlCandidate
    ∧ selectFastestAudioFormat [mp4DlpCandidate, webmDlpCandidate] = some mp4DlpCandidate :=
  ⟨rfl, rfl, selectFastest_pair⟩

/-- C3: for both caches a get immediately after a put returns the stored value,
and a get of an entry strictly older than the TTL returns a miss, lazily removes
the stale entry, and shrinks the occupancy count by one. -/
theorem C3_cache_ttl_contract :
    (∀ (now : Nat) (k v : String) (cache : List (String × StreamCacheEntry)),
        (getCachedStreamUrl now k (setCachedStreamUrl now k v cache)).1 = some v)
    ∧ (∀ (now : Nat) (k : String) (info : VideoInfo) (cache : List (String × VideoInfoEntry)),
        (getCachedVideoInfo now k (setCachedVideoInfo now k info cache)).1 = some info)
    ∧ (∀ (now : Nat) (k : String) (cache : List (String × StreamCacheEntry))
        (e : StreamCacheEntry), (cache.map Prod.fst).Nodup →
        mapLookup k cache = some e → now - e.timestamp > STREAM_CACHE_TTL_MS →
        (getCachedStreamUrl now k cache).1 = none
        ∧ mapLookup k (getCachedStreamUrl now k cache).2 = none
        ∧ (getCachedStreamUrl now k cache).2.length + 1 = cache.length)
    ∧ (∀ (now : Nat) (k : String) (cache : List (String × VideoInfoEntry))
        (e : VideoInfoEntry), (cache.map Prod.fst).Nodup →
        mapLookup k cache = some e → now - e.timestamp > INFO_CACHE_TTL_MS →
        (getCachedVideoInfo now k cache).1 = none
        ∧ mapLookup k (getCachedVideoInfo now k cache).2 = none
        ∧ (getCachedVideoInfo now k cache).2.length + 1 = cache.length) := by
  refine ⟨?_, ?_, ?_, ?_⟩
  · intro now k v cache
    unfold getCachedStreamUrl setCachedStreamUrl
    rw [mapLookup_mapSet_self]
    simp [Nat.sub_self]
  · intro now k info cache
    unfold getCachedVideoInfo setCachedVideoInfo
    rw [mapLookup_mapSet_self]
    simp [Nat.sub_self]
  · exact fun now k cache e hnd hlk hexp =>
      getCachedStreamUrl_expired now k cache e hnd hlk hexp
  · exact fun now k cache e hnd hlk hexp =>
      getCachedVideoInfo_expired now k cache e hnd hlk hexp

theorem C3_cache_ttl_contract_witness :
    ((([("k", { url := "u", timestamp := 0 })] : List (String × StreamCacheEntry)).map
        Prod.fst).Nodup)
    ∧ mapLookup "k" ([("k", { url := "u", timestamp := 0 })] : List (String × StreamCacheEntry))
        = some { url := "u", timestamp := 0 }
    ∧ (10800001 - 0 > STREAM_CACHE_TTL_MS)
    ∧ (getCachedStreamUrl 7 "k" (setCachedStreamUrl 7 "k" "u" [])).1 = some "u"
    ∧ (getCachedStreamUrl 10800001 "k"
        [("k", { url := "u", timestamp := 0 })]).1 = none :=
  ⟨by decide, by decide, by decide,
   C3_cache_ttl_contract.1 7 "k" "u" [],
   (C3_cache_ttl_contract.2.2.1 10800001 "k" [("k", { url := "u", timestamp := 0 })]
      { url := "u", timestamp := 0 } (by decide) (by decide) (by decide)).1⟩

/-- C4 as stated is false on the current server: its caches are plain Maps with
no entry bound, so 1001 puts of distinct identifiers leave 1001 entries in the
stream URL cache, exceeding the 1000-entry bound that the only bound-configuring
variant (the historical LRU setup) prescribes. -/
theorem C4_counterexample :
    (putManyStreamUrls 0 (distinctIds 1001) []).length = 1001
    ∧ 1000 < (putManyStreamUrls 0 (distinctIds 1001) []).length := by
  have h := putManyStreamUrls_empty_length 0 1001
  exact ⟨h, by rw [h]; omega⟩

/-- C4 amended: the caches of the current server enforce no maximum entry count;
a sequence of puts over n distinct identifiers leaves exactly n entries in each
cache, for every n, so only the TTL bounds occupancy. The 1000 and 2000 entry
LRU bounds exist only in the historical variant. -/
theorem C4_caches_unbounded (now n : Nat) :
    (putManyStreamUrls now (distinctIds n) []).length = n
    ∧ (putManyVideoInfos now (distinctIds n) []).length = n :=
  ⟨putManyStreamUrls_empty_length now n, putManyVideoInfos_empty_length now n⟩

/-- C5: the relay copies the upstream status code and the allow-listed headers
content-type, content-length, content-range and accept-ranges, defaulting
content-type to audio/mp4 and accept-ranges to bytes when upstream omits them;
in particular a 206 upstream answer carrying Content-Range bytes 100-199/1000
is relayed as a 206 client response with that exact Content-Range. -/
theorem C5_relay_header_contract (u : UpstreamResponse) :
    (relayUpstreamHead u).status = u.status
    ∧ (u.contentType = none → (relayUpstreamHead u).contentType = "audio/mp4")
    ∧ (u.acceptRanges = none → (relayUpstreamHead u).acceptRanges = "bytes")
    ∧ (∀ v, v ≠ "" → u.contentType = some v → (relayUpstreamHead u).contentType = v)
    ∧ (∀ v, v ≠ "" → u.acceptRanges = some v → (relayUpstreamHead u).acceptRanges = v)
    ∧ (∀ v, v ≠ "" → u.contentLength = some v → (relayUpstreamHead u).contentLength = some v)
    ∧ (∀ v, v ≠ "" → u.contentRange = some v → (relayUpstreamHead u).contentRange = some v)
    ∧ (u.status = 206 → u.contentRange = some "bytes 100-199/1000" →
        (relayUpstreamHead u).status = 206
        ∧ (relayUpstreamHead u).contentRange = some "bytes 100-199/1000") := by
  refine ⟨rfl, ?_, ?_, ?_, ?_, ?_, ?_, ?_⟩
  · intro h
    simp [relayUpstreamHead, jsStrOr, h]
  · intro h
    simp [relayUpstreamHead, jsStrOr, h]
  · intro v hv h
    simp [relayUpstreamHead, jsStrOr, h, hv]
  · intro v hv h
    simp [relayUpstreamHead, jsStrOr, h, hv]
  · intro v hv h
    simp [relayUpstreamHead, jsHeaderOpt, h, hv]
  · intro v hv h
    simp [relayUpstreamHead, jsHeaderOpt, h, hv]
  · intro h206 hcr
    constructor
    · show u.status = 206
      exact h206
    · simp [relayUpstreamHead, jsHeaderOpt, hcr]

theorem C5_relay_header_contract_witness :
    (relayUpstreamHead upstream206).status = 206
    ∧ (relayUpstreamHead upstream206).contentType = "audio/mp4"
    ∧ (relayUpstreamHead upstream206).acceptRanges = "bytes"
    ∧ (relayUpstreamHead upstream206).contentRange = some "bytes 100-199/1000" :=
  ⟨((C5_relay_header_contract upstream206).2.2.2.2.2.2.2 rfl rfl).1,
   (C5_relay_header_contract upstream206).2.1 rfl,
   (C5_relay_header_contract upstream206).2.2.1 rfl,
   ((C5_relay_header_contract upstream206).2.2.2.2.2.2.2 rfl rfl).2⟩

/-- C6 as stated is false: a Range header that is present with the empty value
is dropped, not forwarded verbatim, because the handler guards on JavaScript
truthiness rather than on presence. -/
theorem C6_counterexample :
    (buildUpstreamHeaders (some "")).range = none
    ∧ (some "" : Option String) ≠ none :=
  ⟨rfl, by decide⟩

/-- C6 amended: a present nonempty Range value is forwarded verbatim to the
upstream fetch; when the Range header is absent, or present but empty, the
upstream request carries no Range header. -/
theorem C6_range_forwarding (r : String) (hr : r ≠ "") :
    (buildUpstreamHeaders (some r)).range = some r
    ∧ (buildUpstreamHeaders none).range = none
    ∧ (buildUpstreamHeaders (some "")).range = none := by
  refine ⟨?_, rfl, rfl⟩
  simp [buildUpstreamHeaders, hr]

theorem C6_range_forwarding_witness :
    "bytes=100-199" ≠ ""
    ∧ (buildUpstreamHeaders (some "bytes=100-199")).range = some "bytes=100-199" :=
  ⟨by decide, (C6_range_forwarding "bytes=100-199" (by decide)).1⟩

/-- C7: the normalizer returns every input already matching the eleven-character
identifier pattern unchanged; watch URLs, embed URLs and bare identifiers built
from a valid identifier all normalize to that identifier; and the inputs "",
"http://" and "12345" are all rejected as invalid. -/
theorem C7_normalizer_contract :
    (∀ s : String, isValidId s = true → normalizeVideoId s = some s)
    ∧ (∀ id : String, isValidId id = true →
        normalizeVideoId ("https://y/watch?v=" ++ id) = some id
        ∧ normalizeVideoId ("https://y/embed/" ++ id) = some id)
    ∧ normalizeVideoId "" = none
    ∧ normalizeVideoId "http://" = none
    ∧ normalizeVideoId "12345" = none :=
  ⟨normalizeVideoId_valid_identity,
   fun id h => ⟨normalizeVideoId_watch_url id h, normalizeVideoId_embed_url id h⟩,
   by decide, by decide, by decide⟩

theorem C7_normalizer_contract_witness :
    isValidId "dQw4w9WgXcQ" = true
    ∧ normalizeVideoId "dQw4w9WgXcQ" = some "dQw4w9WgXcQ"
    ∧ normalizeVideoId ("https://y/watch?v=" ++ "dQw4w9WgXcQ") = some "dQw4w9WgXcQ"
    ∧ normalizeVideoId ("https://y/embed/" ++ "dQw4w9WgXcQ") = some "dQw4w9WgXcQ" :=
  ⟨by decide,
   C7_normalizer_contract.1 "dQw4w9WgXcQ" (by decide),
   (C7_normalizer_contract.2.1 "dQw4w9WgXcQ" (by decide)).1,
   (C7_normalizer_contract.2.1 "dQw4w9WgXcQ" (by decide)).2⟩

/-- C8: a syntactically invalid identifier yields a 400 JSON body naming the
offending identifier without invoking resolution (the response is the same for
every resolver); a resolution failure before headers are sent yields a body with
the error message, the identifier and the fixed suggestion, under 404 when the
message mentions unavailable and 500 otherwise; and stack detail appears only in
the development configuration. -/
theorem C8_stream_error_responses (env rawId : String)
    (resolve resolve2 : String → ResolveOutcome) :
    (normalizeVideoId rawId = none →
        getStreamResponse env rawId resolve = getStreamResponse env rawId resolve2
        ∧ getStreamResponse env rawId resolve =
            .invalidId 400 { error := "Invalid video ID", videoId := rawId,
                             suggestion := none, details := none })
    ∧ (∀ id msg stack, normalizeVideoId rawId = some id → msg ≠ "" →
        resolve id = .err msg stack →
        getStreamResponse env rawId resolve =
          .resolveError (if containsSubstring msg "unavailable" then 404 else 500)
            { error := msg, videoId := id, suggestion := some suggestionText,
              details := if env = "development" then some stack else none })
    ∧ (∀ st bd, getStreamResponse env rawId resolve = .resolveError st bd →
        bd.details ≠ none → env = "development") := by
  refine ⟨?_, ?_, ?_⟩
  · intro hN
    unfold getStreamResponse
    rw [hN]
    exact ⟨rfl, rfl⟩
  · intro id msg stack hN hmsg hres
    unfold getStreamResponse
    simp only [hN, hres]
    simp [hmsg]
  · intro st bd hresp hdet
    unfold getStreamResponse at hresp
    cases hN : normalizeVideoId rawId with
    | none => simp only [hN] at hresp; exact absurd hresp (by simp)
    | some id =>
      simp only [hN] at hresp
      cases hres : resolve id with
      | ok url => simp only [hres] at hresp; exact absurd hresp (by simp)
      | err msg stack =>
        simp only [hres] at hresp
        simp only [StreamResponse.resolveError.injEq] at hresp
        have hdet2 := hresp.2 ▸ hdet
        by_cases henv : env = "development"
        · exact henv
        · rw [← hresp.2] at hdet
          simp [henv] at hdet

theorem C8_stream_error_responses_witness :
    normalizeVideoId "12345" = none
    ∧ normalizeVideoId "dQw4w9WgXcQ" = some "dQw4w9WgXcQ"
    ∧ getStreamResponse "production" "12345" (fun _ => .ok "u") =
        .invalidId 400 { error := "Invalid video ID", videoId := "12345",
                         suggestion := none, details := none }
    ∧ getStreamResponse "production" "dQw4w9WgXcQ"
        (fun _ => .err "Video unavailable" "trace") =
        .resolveError 404
          { error := "Video unavailable", videoId := "dQw4w9WgXcQ",
            suggestion := some suggestionText, details := none } :=
  ⟨by decide, by decide,
   ((C8_stream_error_responses "production" "12345" (fun _ => .ok "u")
      (fun _ => .ok "u")).1 (by decide)).2,
   (C8_stream_error_responses "production" "dQw4w9WgXcQ"
      (fun _ => .err "Video unavailable" "trace") (fun _ => .ok "u")).2.1
     "dQw4w9WgXcQ" "Video unavailable" "trace" (by decide) (by decide) rfl⟩

end MusicDownloader
